import Mathlib

/-!
# Verification of the go-mongo-restapi user service (`business/user/user.go`)

Shallow embedding of the user service layer of `scanet9/go-mongo-restapi`.
The Go source in `src/business/user/user.go` is embedded as pure Lean
functions: the Mongo collection becomes a `List User` threaded through each
operation, Go's `(value, error)` returns become `Except Err` or explicit
result types, and nilable pointer fields of the partial-update request
become `Option` fields.

External collaborators that are not part of the repository are modelled:
* the bcrypt library (`golang.org/x/crypto/bcrypt`) is modelled as a
  salted, prefix-tagged encoding with exact recompute-and-compare
  verification (`bcryptGenerate` / `bcryptCompare`);
* the claim enumeration of the `entities` package (not under `src/`) is
  modelled from the spec's description of a closed code→name table;
* the Mongo driver's session/transaction machinery is modelled by its
  documented contract: the callback's writes commit only when the callback
  returns no error, and the session is released on every path after a
  successful `StartSession` (Go `defer`).
-/

namespace GoMongoRestapi

/-- Error values of the service.  The Go code returns untyped
`fmt.Errorf` errors; each constructor stands for one of the distinct error
values produced in `user.go` (plus infrastructure failures of the
modelled collaborators), and `Err.message` records the exact Go format
string. -/
inductive Err where
  | notFound
  | emailNotFound
  | incorrectPassword
  | oldPasswordIncorrect
  | invalidClaim (code : Int)
  | hashingError
  | insertFailed
  | backendUnreachable
  deriving DecidableEq, Repr

/-- The message carried by each error, as formatted in `user.go`
(`fmt.Errorf("email not found")`, `fmt.Errorf("incorrect password")`,
`fmt.Errorf("old password incorrect")`,
`fmt.Errorf("not valid claim detected: %d", claim)`). -/
def Err.message : Err → String
  | .notFound => "not found"
  | .emailNotFound => "email not found"
  | .incorrectPassword => "incorrect password"
  | .oldPasswordIncorrect => "old password incorrect"
  | .invalidClaim code => "not valid claim detected: " ++ toString code
  | .hashingError => "hashing error"
  | .insertFailed => "insert failed"
  | .backendUnreachable => "backend unreachable"

/-! ## Claim enumeration (`entities` package) -/

/-- Modelled from the spec: the `entities` package (not under `src/`)
maintains a closed enumeration of valid integer claim codes with display
names — "a fixed enumeration (e.g., 0 = Admin, 1 = Operator, …)";
`AllClaims` / `entities.GetClaims` exposes the code→name mapping.  The
code `99999` is outside the enumeration. -/
def validClaimTable : List (Int × String) := [(0, "Admin"), (1, "Operator")]

/-- Modelled from the spec: `entities.Claim.IsValid` — membership of a
code in the closed enumeration. -/
def claimIsValid (c : Int) : Bool :=
  (validClaimTable.find? (fun p => p.1 == c)).isSome

/-- Modelled from the spec: `entities.Claim.String` — the display name of
a claim code (only ever used on codes that passed validation). -/
def claimName (c : Int) : String :=
  ((validClaimTable.find? (fun p => p.1 == c)).map Prod.snd).getD ""

/-- Modelled from the spec: `entities.GetClaims` — the full code→name
enumeration. -/
def entitiesGetClaims : List (Int × String) := validClaimTable

/-! ## Credential hasher (`golang.org/x/crypto/bcrypt`, modelled)

`bcryptGenerate` stands for `bcrypt.GenerateFromPassword`: it emits a
version/cost-tagged string embedding a salt (modelled as a run of `'s'`
characters) and the password-derived digest (modelled so that
verification recomputes with the embedded salt and compares exactly —
one password verifies per hash).  `bcryptCompare` stands for
`bcrypt.CompareHashAndPassword`: it parses the tag and salt out of the
hash, recomputes, and compares; any malformed hash yields a mismatch. -/

def bcryptGenerate (salt : Nat) (password : String) : String :=
  "$2a$10$" ++ String.mk (List.replicate salt 's') ++ "$" ++ password

def bcryptCompare (hash password : String) : Bool :=
  match hash.data with
  | '$' :: '2' :: 'a' :: '$' :: '1' :: '0' :: '$' :: rest =>
    let saltPart := rest.takeWhile (fun ch => ch == 's')
    rest.drop saltPart.length == '$' :: password.data
  | _ => false

/-- Environment of one bcrypt invocation: the salt the RNG would draw and
whether the RNG succeeds (`bcrypt.GenerateFromPassword` can fail on
entropy exhaustion; the Go code propagates that error). -/
structure HashEnv where
  salt : Nat
  genOk : Bool
  deriving DecidableEq, Repr

/-- Go `hashPassword` (user.go:286-293): hashes the password with
`bcrypt.GenerateFromPassword`, propagating the library error; on success
the plaintext is replaced by the hash (modelled by returning it). -/
def hashPassword (env : HashEnv) (password : String) : Except Err String :=
  if env.genOk then .ok (bcryptGenerate env.salt password)
  else .error .hashingError

/-- Go `checkPasswordHash` (user.go:295-298): true iff
`bcrypt.CompareHashAndPassword` returns no error. -/
def checkPasswordHash (password hash : String) : Bool :=
  bcryptCompare hash password

/-! ## Claim validation -/

/-- Go `validateClaims` (user.go:277-284): scans the codes in order and
fails on the first one outside the enumeration, with that code in the
error. -/
def validateClaims : List Int → Except Err Unit
  | [] => .ok ()
  | c :: rest =>
    if claimIsValid c then validateClaims rest
    else .error (.invalidClaim c)

/-! ## Data model -/

/-- Go `entities.User` (and `requests.User`, which has the identical field
set and is converted by a direct struct cast in `Create`): the stored
identity record.  `passwordHash` holds the plaintext password on the wire
in a `Create` request and the bcrypt hash once stored.  Go's `Claims
[]int` slice becomes `List Int` (a nil slice is the empty list);
timestamps are UTC Unix seconds. -/
structure User where
  id : String
  name : String
  surnames : String
  email : String
  passwordHash : String
  claims : List Int
  createdAt : Nat
  updatedAt : Nat
  deriving DecidableEq, Repr

/-- Go `requests.UpdateUser`: the merge-patch request whose nilable pointer
fields become `Option`s (`none` = field absent). -/
structure UpdateUser where
  name : Option String := none
  surnames : Option String := none
  email : Option String := none
  newPassword : Option String := none
  oldPassword : Option String := none
  claims : Option (List Int) := none
  deriving DecidableEq, Repr

/-- Go `requests.LoginUser`: login credentials. -/
structure LoginUser where
  email : String
  password : String
  deriving DecidableEq, Repr

/-! ## Token issuer -/

/-- The JWT payload built in `createToken`: the standard fields plus one
boolean flag per granted claim, keyed by the claim's display name
(`jwt.MapClaims` entries, in insertion order). -/
structure TokenPayload where
  authorized : Bool
  user_id : String
  exp : Nat
  claimFlags : List (String × Bool)
  deriving DecidableEq, Repr

/-- A token signed with HS256: the payload together with the symmetric
secret it was signed with (the serialized compact form is not modelled). -/
structure SignedToken where
  payload : TokenPayload
  secret : String
  deriving DecidableEq, Repr

/-- Go `createToken` (user.go:254-275): builds the payload
(`authorized=true`, `user_id`, `exp = now + 168h`), revalidates the claim
codes (failing with the validator's error before any token exists), adds
one `true` flag per claim keyed by its display name, and signs with the
secret.  `now` is the issuance time in Unix seconds. -/
def createToken (userid : String) (jwtSecret : String) (claims : List Int)
    (now : Nat) : Except Err SignedToken :=
  match validateClaims claims with
  | .error e => .error e
  | .ok _ =>
    .ok { payload :=
            { authorized := true
              user_id := userid
              exp := now + 168 * 3600
              claimFlags := claims.map (fun c => (claimName c, true)) }
          secret := jwtSecret }

/-! ## Repository (scv-go-framework MongoRepository over the user
collection, modelled as a `List User` in insertion order) -/

/-- Go `repo.Get` with an email filter: all stored users whose `email`
matches, in collection order. -/
def repoGetByEmail (db : List User) (email : String) : List User :=
  db.filter (fun w => w.email == email)

/-- Go `repo.GetByID`: the stored user with the given id, if any. -/
def repoGetByID (db : List User) (id : String) : Option User :=
  db.find? (fun w => w.id == id)

/-- Go `repo.Create`: insert-one, returning the inserted id and the new
collection state. -/
def repoCreate (db : List User) (u : User) : String × List User :=
  (u.id, db ++ [u])

/-- Go `repo.Update` with `upsert=false`: full-document replace of the
record with the given id. -/
def repoUpdate (db : List User) (id : String) (u : User) : List User :=
  db.map (fun w => if w.id == id then u else w)

/-! ## User service operations -/

/-- The `Login` response (`responses.LoginUser`): the user plus the signed
token. -/
structure LoginResponse where
  user : User
  token : SignedToken
  deriving DecidableEq, Repr

/-- Go `Service.Login` (user.go:53-77): find by email (error `"email not
found"` when no match), verify the password against the stored hash
(error `"incorrect password"` on mismatch), and on success issue a token
from the user's stored claims. -/
def login (jwtSecret : String) (now : Nat) (db : List User)
    (credentials : LoginUser) : Except Err LoginResponse :=
  match repoGetByEmail db credentials.email with
  | [] => .error .emailNotFound
  | user :: _ =>
    if checkPasswordHash credentials.password user.passwordHash then
      match createToken user.id jwtSecret user.claims now with
      | .error e => .error e
      | .ok token => .ok { user := user, token := token }
    else .error .incorrectPassword

/-- Go `Service.Create` (user.go:80-100): hash the password in place,
validate the claims, stamp a fresh id and `createdAt = updatedAt = now`,
then insert.  The pair returned is the operation's result together with
the collection state afterwards (unchanged on every error path, since the
insert is only reached after both validations succeed). -/
def create (env : HashEnv) (now : Nat) (newID : String) (db : List User)
    (u : User) : Except Err String × List User :=
  match hashPassword env u.passwordHash with
  | .error e => (.error e, db)
  | .ok hashed =>
    match validateClaims u.claims with
    | .error e => (.error e, db)
    | .ok _ =>
      let stamped : User :=
        { u with id := newID, passwordHash := hashed
                 createdAt := now, updatedAt := now }
      let (insertedID, db') := repoCreate db stamped
      (.ok insertedID, db')

/-- Go `Service.GetByID` (user.go:133-139): direct lookup, `NotFound` when
the id misses. -/
def getByID (db : List User) (id : String) : Except Err User :=
  match repoGetByID db id with
  | some u => .ok u
  | none => .error .notFound

/-- Result of `Service.Update`: the Go method either panics on a nil
`OldPassword` dereference (`*u.OldPassword` at user.go:158 with no nil
check), returns an error, or succeeds; the collection state after the
call is carried in the error and success cases (every error is returned
before `repo.Update` runs, so the state is unchanged there). -/
inductive UpdateResult where
  | panicNilDeref
  | error (e : Err) (db : List User)
  | ok (db : List User)
  deriving DecidableEq, Repr

/-- The first three conditional assignments of `Service.Update`
(user.go:148-156): overwrite `name`, `surnames`, `email` with the request
value when the corresponding pointer is non-nil. -/
def applyNameSurnamesEmail (u : UpdateUser) (user : User) : User :=
  let user := match u.name with
    | some n => { user with name := n }
    | none => user
  let user := match u.surnames with
    | some sn => { user with surnames := sn }
    | none => user
  match u.email with
  | some em => { user with email := em }
  | none => user

/-- The tail of `Service.Update` (user.go:169-181): validate and apply
the claims when supplied, stamp `updatedAt = now`, and replace the
document by id. -/
def updateFinish (now : Nat) (db : List User) (id : String)
    (u : UpdateUser) (user : User) : UpdateResult :=
  match u.claims with
  | some cs =>
    match validateClaims cs with
    | .error e => .error e db
    | .ok _ =>
      .ok (repoUpdate db id { user with claims := cs, updatedAt := now })
  | none => .ok (repoUpdate db id { user with updatedAt := now })

/-- Go `Service.Update` (user.go:142-182): load the current record, apply
the supplied fields in order (name, surnames, email, password, claims),
and persist via replace-by-id with a fresh `updatedAt`.  When
`NewPassword` is supplied, `*u.OldPassword` is dereferenced without a nil
check; when the old password fails verification the error `"old password
incorrect"` is returned before any write. -/
def update (env : HashEnv) (now : Nat) (db : List User) (id : String)
    (u : UpdateUser) : UpdateResult :=
  match repoGetByID db id with
  | none => .error .notFound db
  | some user0 =>
    let user := applyNameSurnamesEmail u user0
    match u.newPassword with
    | some np =>
      match u.oldPassword with
      | none => .panicNilDeref
      | some op =>
        if checkPasswordHash op user.passwordHash then
          match hashPassword env np with
          | .error e => .error e db
          | .ok hashed =>
            updateFinish now db id u { user with passwordHash := hashed }
        else .error .oldPasswordIncorrect db
    | none => updateFinish now db id u user

/-- Go `Service.GetClaims` (user.go:193-195): returns both the full
enumeration and the result of pinging the backend — the error is non-nil
exactly when the ping fails. -/
def getClaims (pingOk : Bool) : List (Int × String) × Option Err :=
  (entitiesGetClaims, if pingOk then none else some .backendUnreachable)

/-! ## Atomic transaction demo -/

/-- Outcome of `AtomicTransationProof`: either `StartSession` itself
failed (before any session existed), or the method finished with
`sessionReleased` recording whether the deferred `EndSession` ran, the
resulting collection state, and the returned error (if any). -/
inductive AtomicOutcome where
  | sessionStartFailed (db : List User)
  | finished (sessionReleased : Bool) (db : List User) (err : Option Err)
  deriving DecidableEq, Repr

/-- Go `Service.AtomicTransationProof` (user.go:198-252): start a session
(majority write concern, snapshot read concern), defer its release, hash
the two fixed passwords, then run the callback inside
`session.WithTransaction`: insert Entity1, then Entity2, aborting the
whole transaction if either insert errors.  The driver's transaction
contract is modelled directly: the callback's writes are visible after
the call iff the callback returned no error.  `startOk` models whether
`StartSession` succeeds and `fail1`/`fail2` whether each insert fails
(e.g. a duplicate constraint); `id1`/`id2` are the two generated object
ids.  The Go code never sets `CreatedAt`/`UpdatedAt` on these two
entities, so they keep their zero values. -/
def atomicTransationProof (env : HashEnv) (startOk : Bool)
    (fail1 fail2 : Bool) (id1 id2 : String) (db : List User) :
    AtomicOutcome :=
  if startOk then
    match hashPassword env "Entity1" with
    | .error e => .finished true db (some e)
    | .ok user1Hash =>
      match hashPassword env "Entity2" with
      | .error e => .finished true db (some e)
      | .ok user2Hash =>
        if fail1 then .finished true db (some .insertFailed)
        else
          let user1 : User :=
            { id := id1, name := "Entity1", surnames := "Entity1"
              email := "Entity1", passwordHash := user1Hash
              claims := [], createdAt := 0, updatedAt := 0 }
          if fail2 then .finished true db (some .insertFailed)
          else
            let user2 : User :=
              { id := id2, name := "Entity2", surnames := "Entity2"
                email := "Entity2", passwordHash := user2Hash
                claims := [], createdAt := 0, updatedAt := 0 }
            .finished true (db ++ [user1, user2]) none
  else .sessionStartFailed db

/-! ## Concrete fixtures used by the witness theorems -/

/-- A hashing environment whose RNG succeeds. -/
def envW : HashEnv := { salt := 5, genOk := true }

/-- A stored user whose password is "right". -/
def userW : User :=
  { id := "id1", name := "Ann", surnames := "Smith"
    email := "ann@example.com", passwordHash := bcryptGenerate 2 "right"
    claims := [0], createdAt := 10, updatedAt := 10 }

/-- A one-user collection. -/
def dbW : List User := [userW]

/-- The collection `dbW` after a name-only Update at time 99. -/
def dbW2 : List User :=
  [{ id := "id1", name := "NewName", surnames := "Smith"
     email := "ann@example.com", passwordHash := bcryptGenerate 2 "right"
     claims := [0], createdAt := 10, updatedAt := 99 }]

/-- A Create request (plaintext password in `passwordHash`, as on the
wire). -/
def uReqW : User :=
  { id := "", name := "N", surnames := "S", email := "e@f"
    passwordHash := "plain", claims := [1], createdAt := 0, updatedAt := 0 }

/-! ## Lemmas about the modelled hasher -/

lemma data_bcryptGenerate (salt : Nat) (p : String) :
    (bcryptGenerate salt p).data =
      '$' :: '2' :: 'a' :: '$' :: '1' :: '0' :: '$' ::
        (List.replicate salt 's' ++ '$' :: p.data) := by
  simp [bcryptGenerate, String.data_append]

lemma takeWhile_salt (salt : Nat) (l : List Char) :
    (List.replicate salt 's' ++ '$' :: l).takeWhile (fun ch => ch == 's') =
      List.replicate salt 's' := by
  induction salt with
  | zero => simp [List.takeWhile]
  | succ k ih => simp [List.replicate, List.takeWhile, ih]

lemma bcryptCompare_generate (salt : Nat) (p q : String) :
    bcryptCompare (bcryptGenerate salt p) q = decide (q = p) := by
  unfold bcryptCompare
  rw [data_bcryptGenerate]
  simp only [takeWhile_salt, List.length_replicate]
  have hdrop :
      (List.replicate salt 's' ++ '$' :: p.data).drop salt = '$' :: p.data := by
    have hd := List.drop_left (List.replicate salt 's') ('$' :: p.data)
    rwa [List.length_replicate] at hd
  rw [hdrop]
  by_cases h : q = p
  · simp [h]
  · have hdata : p.data ≠ q.data := fun hd => h (String.ext hd).symm
    simp [h, hdata]

lemma checkPasswordHash_generate (salt : Nat) (p q : String) :
    checkPasswordHash q (bcryptGenerate salt p) = decide (q = p) :=
  bcryptCompare_generate salt p q

lemma bcryptGenerate_ne_plaintext (salt : Nat) (p : String) :
    bcryptGenerate salt p ≠ p := by
  intro h
  have hlen : (bcryptGenerate salt p).data.length = p.data.length := by
    rw [h]
  rw [data_bcryptGenerate] at hlen
  simp [List.length_append] at hlen
  omega

/-! ## Lemmas about the update path -/

lemma applyNSE_fields (u : UpdateUser) (user : User) :
    (applyNameSurnamesEmail u user).name = u.name.getD user.name
  ∧ (applyNameSurnamesEmail u user).surnames = u.surnames.getD user.surnames
  ∧ (applyNameSurnamesEmail u user).email = u.email.getD user.email
  ∧ (applyNameSurnamesEmail u user).passwordHash = user.passwordHash
  ∧ (applyNameSurnamesEmail u user).claims = user.claims
  ∧ (applyNameSurnamesEmail u user).id = user.id
  ∧ (applyNameSurnamesEmail u user).createdAt = user.createdAt := by
  cases hn : u.name <;> cases hs : u.surnames <;> cases he : u.email <;>
    simp [applyNameSurnamesEmail, hn, hs, he]

lemma validateClaims_ok_iff (claims : List Int) :
    validateClaims claims = .ok () ↔ ∀ c ∈ claims, claimIsValid c = true := by
  induction claims with
  | nil => simp [validateClaims]
  | cons c rest ih =>
    cases h : claimIsValid c with
    | true => simp [validateClaims, h, ih]
    | false => simp [validateClaims, h]

lemma validateClaims_error (claims : List Int) (e : Err)
    (herr : validateClaims claims = .error e) :
    ∃ c pre suf, e = .invalidClaim c ∧ claims = pre ++ c :: suf ∧
      (∀ x ∈ pre, claimIsValid x = true) ∧ claimIsValid c = false := by
  induction claims with
  | nil => simp [validateClaims] at herr
  | cons c rest ih =>
    cases h : claimIsValid c with
    | true =>
      rw [validateClaims, h, if_pos rfl] at herr
      obtain ⟨c2, pre, suf, he2, hsplit, hpre, hc2⟩ := ih herr
      refine ⟨c2, c :: pre, suf, he2, by simp [hsplit], ?_, hc2⟩
      intro x hx
      rcases List.mem_cons.mp hx with h1 | h1
      · exact h1 ▸ h
      · exact hpre x h1
    | false =>
      rw [validateClaims, h] at herr
      simp at herr
      exact ⟨c, [], rest, herr.symm, rfl, by simp, h⟩

lemma updateFinish_error (now : Nat) (db : List User) (id : String)
    (u : UpdateUser) (user : User) (e : Err) (db2 : List User)
    (h : updateFinish now db id u user = .error e db2) : db2 = db := by
  rw [updateFinish] at h
  cases hc : u.claims with
  | none => simp only [hc] at h; cases h
  | some cs =>
    simp only [hc] at h
    cases hv : validateClaims cs with
    | ok a => simp only [hv] at h; cases h
    | error e2 => simp only [hv] at h; cases h; rfl

lemma update_error_db (env : HashEnv) (now : Nat) (db : List User)
    (id : String) (u : UpdateUser) (e : Err) (db2 : List User)
    (h : update env now db id u = .error e db2) : db2 = db := by
  rw [update] at h
  cases hfind : repoGetByID db id with
  | none => simp only [hfind] at h; cases h; rfl
  | some user0 =>
    simp only [hfind] at h
    cases hnp : u.newPassword with
    | none =>
      simp only [hnp] at h
      exact updateFinish_error _ _ _ _ _ _ _ h
    | some np =>
      simp only [hnp] at h
      cases hop : u.oldPassword with
      | none => simp only [hop] at h; cases h
      | some op =>
        simp only [hop] at h
        by_cases hcheck :
            checkPasswordHash op (applyNameSurnamesEmail u user0).passwordHash = true
        · rw [if_pos hcheck] at h
          cases hhp : hashPassword env np with
          | error e2 => simp only [hhp] at h; cases h; rfl
          | ok hs =>
            simp only [hhp] at h
            exact updateFinish_error _ _ _ _ _ _ _ h
        · rw [if_neg hcheck] at h; cases h; rfl

lemma updateFinish_ok (now : Nat) (db : List User) (id : String)
    (u : UpdateUser) (user : User) (db2 : List User)
    (h : updateFinish now db id u user = .ok db2) :
    ∃ user2, db2 = repoUpdate db id user2
      ∧ user2.id = user.id
      ∧ user2.name = user.name
      ∧ user2.surnames = user.surnames
      ∧ user2.email = user.email
      ∧ user2.passwordHash = user.passwordHash
      ∧ user2.claims = u.claims.getD user.claims
      ∧ user2.createdAt = user.createdAt
      ∧ user2.updatedAt = now := by
  rw [updateFinish] at h
  cases hc : u.claims with
  | none =>
    simp only [hc] at h
    cases h
    exact ⟨_, rfl, rfl, rfl, rfl, rfl, rfl, rfl, rfl, rfl⟩
  | some cs =>
    simp only [hc] at h
    cases hv : validateClaims cs with
    | error e2 => simp only [hv] at h; cases h
    | ok a =>
      simp only [hv] at h
      cases h
      exact ⟨_, rfl, rfl, rfl, rfl, rfl, rfl, rfl, rfl, rfl⟩

lemma find?_append_fresh (db : List User) (user : User) (id : String)
    (hid : user.id = id) (hfresh : ∀ w ∈ db, w.id ≠ id) :
    (db ++ [user]).find? (fun w => w.id == id) = some user := by
  induction db with
  | nil => simp [List.find?, hid]
  | cons w rest ih =>
    have hw : (w.id == id) = false := by
      simp [hfresh w (by simp)]
    simp only [List.cons_append, List.find?, hw]
    exact ih (fun x hx => hfresh x (by simp [hx]))

/-! ## Claim theorems -/

/-- C1: for every stored user and every Update request supplying a new
password together with an old password that does not verify against the
stored hash, Update returns the credentials error `"old password
incorrect"` with the collection state unchanged; moreover every error
return of Update (not-found, wrong old password, hashing failure, claim
validation failure) leaves the collection state unchanged — no repository
write happens on any failure. -/
theorem update_wrong_old_password_no_write
    (env : HashEnv) (now : Nat) (db : List User) (id : String)
    (u : UpdateUser) (user0 : User) (np op : String)
    (hfind : repoGetByID db id = some user0)
    (hnp : u.newPassword = some np)
    (hop : u.oldPassword = some op)
    (hcheck : checkPasswordHash op user0.passwordHash = false) :
    update env now db id u = .error .oldPasswordIncorrect db
    ∧ Err.oldPasswordIncorrect.message = "old password incorrect"
    ∧ ∀ (env2 : HashEnv) (now2 : Nat) (u2 : UpdateUser) (e : Err)
        (db2 : List User),
        update env2 now2 db id u2 = .error e db2 → db2 = db := by
  refine ⟨?_, rfl,
    fun env2 now2 u2 e db2 h => update_error_db env2 now2 db id u2 e db2 h⟩
  obtain ⟨hnm, hsn, hem, hph, hcl, hid, hca⟩ := applyNSE_fields u user0
  rw [update]
  simp only [hfind, hnp, hop]
  rw [hph, hcheck]
  simp

/-- Witness for C1: on the one-user fixture, an Update supplying a new
password with the wrong old password returns the credentials error and
the unchanged collection. -/
theorem update_wrong_old_password_no_write_witness :
    update envW 99 dbW "id1"
      { newPassword := some "np", oldPassword := some "wrong" } =
      .error .oldPasswordIncorrect dbW :=
  (update_wrong_old_password_no_write envW 99 dbW "id1"
    { newPassword := some "np", oldPassword := some "wrong" } userW "np" "wrong"
    (by rfl) rfl rfl (by rfl)).1

/-- C2: Update is a merge-patch — on every successful Update the stored
record keeps its id and createdAt, each of name/surnames/email/claims
takes the request's value when present and the prior stored value when
absent, updatedAt is stamped to now, and when no new password is supplied
the stored hash is untouched. -/
theorem update_merge_patch
    (env : HashEnv) (now : Nat) (db : List User) (id : String)
    (u : UpdateUser) (user0 : User) (db2 : List User)
    (hfind : repoGetByID db id = some user0)
    (hok : update env now db id u = .ok db2) :
    ∃ user2, db2 = repoUpdate db id user2
      ∧ user2.id = user0.id
      ∧ user2.createdAt = user0.createdAt
      ∧ user2.name = u.name.getD user0.name
      ∧ user2.surnames = u.surnames.getD user0.surnames
      ∧ user2.email = u.email.getD user0.email
      ∧ user2.claims = u.claims.getD user0.claims
      ∧ user2.updatedAt = now
      ∧ (u.newPassword = none → user2.passwordHash = user0.passwordHash) := by
  obtain ⟨hnm, hsn, hem, hph, hcl, hid, hca⟩ := applyNSE_fields u user0
  rw [update] at hok
  simp only [hfind] at hok
  cases hnp : u.newPassword with
  | none =>
    simp only [hnp] at hok
    obtain ⟨user2, hdb, h1, h2, h3, h4, h5, h6, h7, h8⟩ :=
      updateFinish_ok _ _ _ _ _ _ hok
    exact ⟨user2, hdb, by rw [h1, hid], by rw [h7, hca], by rw [h2, hnm],
      by rw [h3, hsn], by rw [h4, hem], by rw [h6, hcl], h8,
      fun _ => by rw [h5, hph]⟩
  | some np =>
    simp only [hnp] at hok
    cases hop : u.oldPassword with
    | none => simp only [hop] at hok; cases hok
    | some op =>
      simp only [hop] at hok
      by_cases hcheck :
          checkPasswordHash op (applyNameSurnamesEmail u user0).passwordHash = true
      · rw [if_pos hcheck] at hok
        cases hhp : hashPassword env np with
        | error e2 => simp only [hhp] at hok; cases hok
        | ok hs =>
          simp only [hhp] at hok
          obtain ⟨user2, hdb, h1, h2, h3, h4, h5, h6, h7, h8⟩ :=
            updateFinish_ok _ _ _ _ _ _ hok
          refine ⟨user2, hdb, ?_, ?_, ?_, ?_, ?_, ?_, h8, ?_⟩
          · rw [h1]; simpa using hid
          · rw [h7]; simpa using hca
          · rw [h2]; simpa using hnm
          · rw [h3]; simpa using hsn
          · rw [h4]; simpa using hem
          · rw [h6]; simp [hcl]
          · intro hcontra; simp [hnp] at hcontra
      · rw [if_neg hcheck] at hok; cases hok

/-- Witness for C2: a name-only Update on the fixture changes exactly
name and updatedAt. -/
theorem update_merge_patch_witness :
    ∃ user2, dbW2 = repoUpdate dbW "id1" user2
      ∧ user2.id = "id1"
      ∧ user2.createdAt = 10
      ∧ user2.name = "NewName"
      ∧ user2.surnames = "Smith"
      ∧ user2.email = "ann@example.com"
      ∧ user2.claims = [0]
      ∧ user2.updatedAt = 99
      ∧ ((none : Option String) = none →
          user2.passwordHash = bcryptGenerate 2 "right") :=
  update_merge_patch envW 99 dbW "id1" { name := some "NewName" } userW dbW2
    (by rfl) (by rfl)

/-- C3: for every Update request in which NewPassword is present but
OldPassword is absent, Update dereferences the nil OldPassword pointer
(modelled as the distinguished panic outcome) instead of returning a
typed error. -/
theorem update_nil_old_password_panics
    (env : HashEnv) (now : Nat) (db : List User) (id : String)
    (u : UpdateUser) (user0 : User) (np : String)
    (hfind : repoGetByID db id = some user0)
    (hnp : u.newPassword = some np)
    (hop : u.oldPassword = none) :
    update env now db id u = .panicNilDeref := by
  rw [update]
  simp only [hfind, hnp, hop]

/-- Witness for C3: on the fixture, an Update supplying only a new
password hits the nil dereference. -/
theorem update_nil_old_password_panics_witness :
    update envW 99 dbW "id1" { newPassword := some "np" } = .panicNilDeref :=
  update_nil_old_password_panics envW 99 dbW "id1"
    { newPassword := some "np" } userW "np" (by rfl) rfl rfl

/-- C4: Login returns the error with message `"email not found"` when no
stored user matches the email, the error with message `"incorrect
password"` when the password does not verify against the matched user's
stored hash (in both cases no token exists, the error carrying no
payload), and on successful verification returns the user together with
the token issued from the user's stored claims. -/
theorem login_spec :
    (∀ (secret : String) (now : Nat) (db : List User) (creds : LoginUser),
      repoGetByEmail db creds.email = [] →
        login secret now db creds = .error .emailNotFound
        ∧ Err.emailNotFound.message = "email not found")
    ∧ (∀ (secret : String) (now : Nat) (db : List User) (creds : LoginUser)
        (user : User) (rest : List User),
        repoGetByEmail db creds.email = user :: rest →
        checkPasswordHash creds.password user.passwordHash = false →
          login secret now db creds = .error .incorrectPassword
          ∧ Err.incorrectPassword.message = "incorrect password")
    ∧ (∀ (secret : String) (now : Nat) (db : List User) (creds : LoginUser)
        (user : User) (rest : List User),
        repoGetByEmail db creds.email = user :: rest →
        checkPasswordHash creds.password user.passwordHash = true →
          login secret now db creds =
            (createToken user.id secret user.claims now).map
              (fun token => { user := user, token := token })) := by
  refine ⟨?_, ?_, ?_⟩
  · intro secret now db creds hfil
    constructor
    · rw [login]; simp [hfil]
    · rfl
  · intro secret now db creds user rest hfil hcheck
    constructor
    · rw [login]; simp [hfil, hcheck]
    · rfl
  · intro secret now db creds user rest hfil hcheck
    rw [login]
    simp only [hfil, hcheck, if_true]
    cases htok : createToken user.id secret user.claims now with
    | error e => simp [htok, Except.map]
    | ok token => simp [htok, Except.map]

/-- Witness for C4: on the fixture, a login with an unknown email fails
with the email-not-found error and a login with the right email but
wrong password fails with the incorrect-password error. -/
theorem login_spec_witness :
    login "sec" 50 dbW { email := "none@example.com", password := "x" } =
      .error .emailNotFound
    ∧ login "sec" 50 dbW { email := "ann@example.com", password := "wrong" } =
      .error .incorrectPassword :=
  ⟨(login_spec.1 "sec" 50 dbW { email := "none@example.com", password := "x" }
      (by rfl)).1,
   (login_spec.2.1 "sec" 50 dbW
      { email := "ann@example.com", password := "wrong" } userW [] (by rfl)
      (by rfl)).1⟩

/-- C5: validateClaims succeeds iff every code is in the fixed valid-claim
enumeration (membership in the code→name table); on failure the reported
code is the first invalid one in iteration order (all codes before it are
valid); and validateClaims on `[99999]` fails with the invalid-claim
error carrying `99999`. -/
theorem validateClaims_spec :
    (∀ claims : List Int,
      validateClaims claims = .ok () ↔ ∀ c ∈ claims, claimIsValid c = true)
    ∧ (∀ c : Int, claimIsValid c = true ↔ c ∈ validClaimTable.map Prod.fst)
    ∧ (∀ (claims : List Int) (e : Err), validateClaims claims = .error e →
        ∃ c pre suf, e = .invalidClaim c ∧ claims = pre ++ c :: suf ∧
          (∀ x ∈ pre, claimIsValid x = true) ∧ claimIsValid c = false)
    ∧ validateClaims [99999] = .error (.invalidClaim 99999) := by
  refine ⟨validateClaims_ok_iff, ?_, validateClaims_error, by rfl⟩
  intro c
  simp [claimIsValid, List.find?_isSome, List.mem_map]

/-- C6: for every user id, secret, claim list and issuance time, when all
codes validate the issued token's payload has authorized = true, user_id
equal to the given id, exp equal to issuance time plus exactly 168 hours,
and one boolean true flag per claim keyed by the claim's display name;
when any code is invalid, issuance fails with the validator's
invalid-claim error and no token is produced. -/
theorem createToken_spec :
    (∀ (userid secret : String) (claims : List Int) (now : Nat),
      validateClaims claims = .ok () →
        createToken userid secret claims now =
          .ok { payload :=
                  { authorized := true
                    user_id := userid
                    exp := now + 168 * 3600
                    claimFlags := claims.map (fun c => (claimName c, true)) }
                secret := secret })
    ∧ (∀ (userid secret : String) (claims : List Int) (now : Nat) (e : Err),
        validateClaims claims = .error e →
          createToken userid secret claims now = .error e
          ∧ ∃ c, e = .invalidClaim c ∧ claimIsValid c = false) := by
  constructor
  · intro userid secret claims now hval
    rw [createToken]
    simp only [hval]
  · intro userid secret claims now e hval
    refine ⟨by rw [createToken]; simp only [hval], ?_⟩
    obtain ⟨c, pre, suf, he, _, _, hc⟩ := validateClaims_error claims e hval
    exact ⟨c, he, hc⟩

/-- Witness for C6: the token issued for user "abc" with claim 0 at time
1000 carries authorized, the user id, the 168-hour expiry, and the Admin
flag. -/
theorem createToken_spec_witness :
    createToken "abc" "sec" [0] 1000 =
      .ok { payload :=
              { authorized := true, user_id := "abc", exp := 1000 + 168 * 3600
                claimFlags := [("Admin", true)] }
            secret := "sec" } :=
  createToken_spec.1 "abc" "sec" [0] 1000 (by rfl)

/-- C7: Create aborts before any write on every hashing or validation
failure (the collection state is returned unchanged, and a hashing
failure alone already aborts); on success, with a fresh generated id, the
inserted record carries that id, the request's name, surnames, email and
claims, createdAt equal to updatedAt (both the stamp time), and a stored
passwordHash different from the plaintext password — and reading the new
id back returns exactly that record. -/
theorem create_spec
    (env : HashEnv) (now : Nat) (newID : String) (db : List User) (u : User)
    (hfresh : ∀ w ∈ db, w.id ≠ newID) :
    (∀ (e : Err) (db2 : List User),
        create env now newID db u = (.error e, db2) → db2 = db)
    ∧ (env.genOk = false →
        create env now newID db u = (.error .hashingError, db))
    ∧ (env.genOk = true → validateClaims u.claims = .ok () →
        ∃ user2, create env now newID db u = (.ok newID, db ++ [user2])
          ∧ getByID (db ++ [user2]) newID = .ok user2
          ∧ user2.id = newID
          ∧ user2.name = u.name
          ∧ user2.surnames = u.surnames
          ∧ user2.email = u.email
          ∧ user2.claims = u.claims
          ∧ user2.createdAt = now
          ∧ user2.updatedAt = now
          ∧ user2.passwordHash ≠ u.passwordHash) := by
  refine ⟨?_, ?_, ?_⟩
  · intro e db2 h
    rw [create] at h
    cases hhp : hashPassword env u.passwordHash with
    | error e2 => simp only [hhp] at h; cases h; rfl
    | ok hs =>
      simp only [hhp] at h
      cases hval : validateClaims u.claims with
      | error e2 => simp only [hval] at h; cases h; rfl
      | ok a => simp only [hval, repoCreate] at h; cases h
  · intro hgen
    rw [create, hashPassword, hgen]
    simp
  · intro hgen hval
    refine
      ⟨{ u with id := newID, passwordHash := bcryptGenerate env.salt u.passwordHash, createdAt := now, updatedAt := now },
        ?_, ?_, rfl, rfl, rfl, rfl, rfl, rfl, rfl,
        bcryptGenerate_ne_plaintext env.salt u.passwordHash⟩
    · rw [create, hashPassword, hgen]
      simp only [if_true, hval, repoCreate]
    · rw [getByID, repoGetByID]
      rw [find?_append_fresh db _ newID rfl
        (by intro w hw; simpa using hfresh w hw)]

/-- Witness for C7: creating a user on the fixture and reading the new id
back round-trips all fields, with a non-plaintext hash and matching
timestamps. -/
theorem create_spec_witness :
    ∃ user2, create envW 7 "newid" dbW uReqW = (.ok "newid", dbW ++ [user2])
      ∧ getByID (dbW ++ [user2]) "newid" = .ok user2
      ∧ user2.id = "newid"
      ∧ user2.name = "N"
      ∧ user2.surnames = "S"
      ∧ user2.email = "e@f"
      ∧ user2.claims = [1]
      ∧ user2.createdAt = 7
      ∧ user2.updatedAt = 7
      ∧ user2.passwordHash ≠ "plain" :=
  (create_spec envW 7 "newid" dbW uReqW (by decide)).2.2 rfl (by rfl)

/-- C8: whenever AtomicTransationProof finishes (session started), the
session is released, and either no error occurred and exactly the two
entity records were appended, or an error occurred and the collection
state is unchanged — in particular a failure of the second insert leaves
the first invisible. -/
theorem atomic_all_or_nothing
    (env : HashEnv) (startOk fail1 fail2 : Bool) (id1 id2 : String)
    (db : List User) (released : Bool) (db2 : List User) (err : Option Err)
    (hfin : atomicTransationProof env startOk fail1 fail2 id1 id2 db =
      .finished released db2 err) :
    released = true
    ∧ ((err = none
          ∧ db2 = db ++
              [{ id := id1, name := "Entity1", surnames := "Entity1"
                 email := "Entity1"
                 passwordHash := bcryptGenerate env.salt "Entity1"
                 claims := [], createdAt := 0, updatedAt := 0 },
               { id := id2, name := "Entity2", surnames := "Entity2"
                 email := "Entity2"
                 passwordHash := bcryptGenerate env.salt "Entity2"
                 claims := [], createdAt := 0, updatedAt := 0 }])
        ∨ (∃ e, err = some e ∧ db2 = db)) := by
  rw [atomicTransationProof] at hfin
  cases hstart : startOk with
  | false => rw [hstart] at hfin; simp at hfin
  | true =>
    rw [hstart, if_pos rfl] at hfin
    cases hgen : env.genOk with
    | false =>
      simp only [hashPassword, hgen, if_false, Bool.false_eq_true] at hfin
      cases hfin
      exact ⟨rfl, Or.inr ⟨.hashingError, rfl, rfl⟩⟩
    | true =>
      simp only [hashPassword, hgen, if_true] at hfin
      cases h1 : fail1 with
      | true =>
        rw [h1, if_pos rfl] at hfin
        cases hfin
        exact ⟨rfl, Or.inr ⟨.insertFailed, rfl, rfl⟩⟩
      | false =>
        rw [h1] at hfin
        simp only [Bool.false_eq_true, if_false] at hfin
        cases h2 : fail2 with
        | true =>
          rw [h2, if_pos rfl] at hfin
          cases hfin
          exact ⟨rfl, Or.inr ⟨.insertFailed, rfl, rfl⟩⟩
        | false =>
          rw [h2] at hfin
          simp only [Bool.false_eq_true, if_false] at hfin
          cases hfin
          exact ⟨rfl, Or.inl ⟨rfl, rfl⟩⟩

/-- Witness for C8: a run in which the second insert fails finishes with
the session released and the collection unchanged — neither entity
persisted. -/
theorem atomic_all_or_nothing_witness :
    (true : Bool) = true
    ∧ ((some Err.insertFailed = none
          ∧ dbW = dbW ++
              [{ id := "x1", name := "Entity1", surnames := "Entity1"
                 email := "Entity1"
                 passwordHash := bcryptGenerate envW.salt "Entity1"
                 claims := [], createdAt := 0, updatedAt := 0 },
               { id := "x2", name := "Entity2", surnames := "Entity2"
                 email := "Entity2"
                 passwordHash := bcryptGenerate envW.salt "Entity2"
                 claims := [], createdAt := 0, updatedAt := 0 }])
        ∨ (∃ e, some Err.insertFailed = some e ∧ dbW = dbW)) :=
  atomic_all_or_nothing envW true false true "x1" "x2" dbW true dbW
    (some .insertFailed) (by rfl)

/-- C9: GetClaims always returns the full code→name enumeration, and its
error component is nil exactly when the backend ping succeeds (the
backend-unreachable error when it fails). -/
theorem getClaims_spec :
    (∀ pingOk : Bool, (getClaims pingOk).1 = entitiesGetClaims)
    ∧ (∀ pingOk : Bool, (getClaims pingOk).2 = none ↔ pingOk = true)
    ∧ (getClaims false).2 = some .backendUnreachable := by
  refine ⟨fun pingOk => rfl, ?_, rfl⟩
  intro pingOk
  cases pingOk <;> simp [getClaims]

/-- C10: verifying a password against its own hash succeeds for every
salt and password; verifying any different password against that hash
returns false (a plain boolean, never a fault); and a malformed hash
yields false as well. -/
theorem hash_verify_spec :
    (∀ (salt : Nat) (p : String),
      checkPasswordHash p (bcryptGenerate salt p) = true)
    ∧ (∀ (salt : Nat) (p p2 : String), p2 ≠ p →
        checkPasswordHash p2 (bcryptGenerate salt p) = false)
    ∧ checkPasswordHash "secret" "not-a-bcrypt-hash" = false := by
  refine ⟨?_, ?_, by rfl⟩
  · intro salt p
    rw [checkPasswordHash_generate]
    simp
  · intro salt p p2 hne
    rw [checkPasswordHash_generate]
    simp [hne]

/-- Witness for C10: the password "p" verifies against its hash and "q"
does not. -/
theorem hash_verify_spec_witness :
    checkPasswordHash "p" (bcryptGenerate 3 "p") = true
    ∧ checkPasswordHash "q" (bcryptGenerate 3 "p") = false :=
  ⟨hash_verify_spec.1 3 "p", hash_verify_spec.2.1 3 "p" "q" (by decide)⟩

end GoMongoRestapi
